import Mathlib

/-!
Verification of the dcupdate tool (a docker-compose image updater) against
its natural-language specification.

The development shallowly embeds the current program variant:
`main.go` (cobra commands `update`, `listen`, `daemon`, the HTTP handler
`handleUpdate`) together with `docker.go` (`shouldProcessService`,
`listServices`, `getImageDigest`, `getContainerName`, `getContainerDigest`,
`updateImages`).  External effects (file reads and docker subprocess calls)
are modelled by an oracle record `Orchestrator` whose fields give the
outcome of each external call; `updateImages` then becomes a pure function
from the oracle and the configuration to a `CycleResult` recording which
side-effecting steps ran, the per-service decisions, the log events emitted,
and whether a fatal log (process exit) was reached.
-/

namespace DcUpdate

/-- `Config` from main.go: include/exclude service name lists and the daemon
sleep interval. -/
structure Config where
  Include : List String
  Exclude : List String
  Sleep : Nat
deriving Repr, DecidableEq

/-- `Service` from docker.go: one service entry of the compose file. -/
structure Service where
  Image : String
deriving Repr, DecidableEq

/-- `DockerCompose` from docker.go.  Go stores `Services` as a map from
service name to service; it is embedded as an association list (the claims
under study are about membership, not about Go map iteration order). -/
structure DockerCompose where
  Services : List (String × Service)
deriving Repr, DecidableEq

/-- Go map lookup `compose.Services[serviceName]`: a missing key yields the
zero value, whose `Image` field is the empty string. -/
def serviceImage (compose : DockerCompose) (name : String) : String :=
  match compose.Services.lookup name with
  | some s => s.Image
  | none => ""

/-- `shouldProcessService` from docker.go: the exclude list is checked first
and rejects; then a non-empty include list admits only its members; an empty
include list admits everything. -/
def shouldProcessService (serviceName : String) (config : Config) : Bool :=
  if config.Exclude.length > 0 && config.Exclude.contains serviceName then
    false
  else if config.Include.length > 0 then
    config.Include.contains serviceName
  else
    true

/-- `listServices` from docker.go: the declared services filtered by
`shouldProcessService`; a nil config disables filtering. -/
def listServices (compose : DockerCompose) (config : Option Config) :
    List String :=
  (compose.Services.filter fun p =>
    match config with
    | none => true
    | some c => shouldProcessService p.1 c).map Prod.fst

/-- Oracle for the program's external calls.  Each field is the outcome of
one kind of external call: reading the compose file, `docker compose pull`,
`docker image inspect` (raw stdout), `docker compose ps` (raw stdout),
`docker container inspect` (raw stdout), `docker compose down` and
`docker compose up -d`.  `Except.error` models a failed call. -/
structure Orchestrator where
  composeRead : Except String DockerCompose
  pullResult : List String → Except String Unit
  imageInspect : String → Except String String
  composePs : String → Except String String
  containerInspect : String → Except String String
  downResult : Except String Unit
  upResult : Except String Unit

/-- Go's `strings.TrimSpace`: remove leading and trailing whitespace
characters.  Written over the character list so it evaluates in the
kernel. -/
def trimSpace (s : String) : String :=
  ⟨((s.data.dropWhile Char.isWhitespace).reverse.dropWhile
    Char.isWhitespace).reverse⟩

/-- `getImageDigest` from docker.go: the raw `docker image inspect` output
with whitespace trimmed (strings.TrimSpace). -/
def getImageDigest (env : Orchestrator) (image : String) :
    Except String String :=
  (env.imageInspect image).map trimSpace

/-- `getContainerName` from docker.go: the raw `docker compose ps` output
with whitespace trimmed. -/
def getContainerName (env : Orchestrator) (serviceName : String) :
    Except String String :=
  (env.composePs serviceName).map trimSpace

/-- `getContainerDigest` from docker.go: the raw `docker container inspect`
output with whitespace trimmed. -/
def getContainerDigest (env : Orchestrator) (containerName : String) :
    Except String String :=
  (env.containerInspect containerName).map trimSpace

/-- Outcome of the per-service body of the comparison loop in
`updateImages` (docker.go): a service is either found to require an update,
found up to date, or skipped (`continue`) when one of its three lookups
fails. -/
inductive DecisionKind where
  | required
  | upToDate
  | skippedLatest (err : String)
  | skippedName (err : String)
  | skippedCurrent (err : String)
deriving Repr, DecidableEq

def DecisionKind.isRequired : DecisionKind → Bool
  | .required => true
  | _ => false

/-- The per-service body of the comparison loop in `updateImages`
(docker.go): resolve the desired image digest, the container name, the
running container digest; any failure skips the service; otherwise the two
trimmed digest strings are compared for literal equality. -/
def checkService (env : Orchestrator) (image serviceName : String) :
    DecisionKind :=
  match getImageDigest env image with
  | .error e => .skippedLatest e
  | .ok latestDigest =>
    match getContainerName env serviceName with
    | .error e => .skippedName e
    | .ok containerName =>
      match getContainerDigest env containerName with
      | .error e => .skippedCurrent e
      | .ok currentDigest =>
        if currentDigest ≠ latestDigest then .required else .upToDate

/-- One log event per `log.Printf` / `log.Fatalf` / `log.Println` call site
of `updateImages` (docker.go). -/
inductive LogEvent where
  | fatalComposeRead (err : String)
  | noServices
  | pulling (count : Nat)
  | pullError (err : String)
  | comparing
  | failedLatestDigest (err : String)
  | failedContainerName (err : String)
  | failedCurrentDigest (err : String)
  | updateRequired (service : String)
  | upToDate (service : String)
  | updatingAll
  | downError (err : String)
  | upError (err : String)
  | done
deriving Repr, DecidableEq

/-- The log lines emitted by one iteration of the comparison loop. -/
def serviceLog (serviceName : String) (d : DecisionKind) : List LogEvent :=
  match d with
  | .required => [.updateRequired serviceName]
  | .upToDate => [.upToDate serviceName]
  | .skippedLatest e => [.failedLatestDigest e]
  | .skippedName e => [.failedContainerName e]
  | .skippedCurrent e => [.failedCurrentDigest e]

/-- Accumulated state of the comparison loop of `updateImages`: the decision
per service (in order), the `updateServices` flag, and the log events
emitted. -/
structure DetectResult where
  decisions : List (String × DecisionKind)
  updateServices : Bool
  logs : List LogEvent
deriving Repr, DecidableEq

/-- The comparison loop of `updateImages` (docker.go): iterates over the
active service names; `updateServices` starts false and is set exactly when
some service's digests differ. -/
def detectServices (env : Orchestrator) (compose : DockerCompose) :
    List String → DetectResult
  | [] => ⟨[], false, []⟩
  | s :: rest =>
    let d := checkService env (serviceImage compose s) s
    let r := detectServices env compose rest
    ⟨(s, d) :: r.decisions, d.isRequired || r.updateServices,
      serviceLog s d ++ r.logs⟩

/-- A side-effecting orchestrator call made during a cycle, in order. -/
inductive StepCall where
  | pull (services : List String)
  | down
  | up
deriving Repr, DecidableEq

/-- What one invocation of `updateImages` did: whether a `log.Fatalf`
(process exit) was reached, which side-effecting docker commands ran,
the per-service decisions, the final `updateServices` flag, and the log. -/
structure CycleResult where
  fatal : Bool
  calls : List StepCall
  decisions : List (String × DecisionKind)
  anyRequired : Bool
  logs : List LogEvent
deriving Repr, DecidableEq

/-- Logs of the `docker compose down` step: an error is logged and execution
continues (best effort). -/
def execDown (env : Orchestrator) : List LogEvent :=
  match env.downResult with
  | .error e => [.downError e]
  | .ok _ => []

/-- Logs of the `docker compose up -d` step: an error is logged and
execution continues (best effort). -/
def execUp (env : Orchestrator) : List LogEvent :=
  match env.upResult with
  | .error e => [.upError e]
  | .ok _ => []

/-- `updateImages` from docker.go.  Control flow mirrors the source:
a compose-file read failure hits `log.Fatalf` (fatal); an empty active set
returns at once; `docker compose pull <services>` failure logs and returns;
otherwise the comparison loop runs and, when `updateServices` is set,
`docker compose down` then `docker compose up -d` both run, each logging
its own error without stopping the other. -/
def updateImages (env : Orchestrator) (config : Option Config) :
    CycleResult :=
  match env.composeRead with
  | .error e =>
    { fatal := true, calls := [], decisions := [], anyRequired := false,
      logs := [.fatalComposeRead e] }
  | .ok compose =>
    if (listServices compose config).length = 0 then
      { fatal := false, calls := [], decisions := [], anyRequired := false,
        logs := [.noServices] }
    else
      match env.pullResult (listServices compose config) with
      | .error e =>
        { fatal := false,
          calls := [StepCall.pull (listServices compose config)],
          decisions := [], anyRequired := false,
          logs := [.pulling (listServices compose config).length,
            .pullError e] }
      | .ok _ =>
        let r := detectServices env compose (listServices compose config)
        if r.updateServices then
          { fatal := false,
            calls := [StepCall.pull (listServices compose config),
              StepCall.down, StepCall.up],
            decisions := r.decisions, anyRequired := true,
            logs := [.pulling (listServices compose config).length,
                .comparing] ++ r.logs ++ [.updatingAll] ++ execDown env ++
              execUp env ++ [.done] }
        else
          { fatal := false,
            calls := [StepCall.pull (listServices compose config)],
            decisions := r.decisions, anyRequired := false,
            logs := [.pulling (listServices compose config).length,
              .comparing] ++ r.logs ++ [.done] }

/-- The daemon loop of main.go (`daemon` command): one cycle per timer
tick.  Each tick's external world is one `Orchestrator`; `log.Fatalf`
terminates the process, so a fatal cycle is the last one. -/
def daemonCycles (config : Option Config) :
    List Orchestrator → List CycleResult
  | [] => []
  | env :: rest =>
    let r := updateImages env config
    if r.fatal then [r] else r :: daemonCycles config rest

/-- An inbound HTTP request as seen by `handleUpdate` (main.go). -/
structure HttpRequest where
  method : String
  headers : List (String × String)
  body : String
deriving Repr, DecidableEq

/-- The response written by `handleUpdate`. -/
structure HttpResponse where
  status : Nat
  body : String
deriving Repr, DecidableEq

/-- `handleUpdate` from main.go: a POST request runs `updateImages(config)`
inline and answers 200 with body "Images updated"; any other method answers
405.  The second component records the cycle the handler ran, if any. -/
def handleUpdate (env : Orchestrator) (config : Option Config)
    (r : HttpRequest) : HttpResponse × Option CycleResult :=
  if r.method = "POST" then
    ({ status := 200, body := "Images updated" },
      some (updateImages env config))
  else
    ({ status := 405, body := "" }, none)

/-- The `listen` command's server processing a sequence of requests: each
request is handled by `handleUpdate` independently; there is no shared
trigger state between requests. -/
def serveRequests (env : Orchestrator) (config : Option Config)
    (rs : List HttpRequest) : List (HttpResponse × Option CycleResult) :=
  rs.map (handleUpdate env config)

/-- Number of update cycles a sequence of requests causes to run. -/
def cyclesTriggered (env : Orchestrator) (config : Option Config)
    (rs : List HttpRequest) : Nat :=
  (serveRequests env config rs).countP (fun p => p.2.isSome)

/-! ### Concrete environments used by the counterexamples and witnesses -/

/-- One declared service `web`, every lookup succeeding, the container
digest equal (after trimming) to the desired image digest. -/
def envUpToDate : Orchestrator :=
  { composeRead := Except.ok ⟨[("web", ⟨"img:latest"⟩)]⟩,
    pullResult := fun _ => Except.ok (),
    imageInspect := fun _ => Except.ok "sha256:aaa\n",
    composePs := fun _ => Except.ok "web-1\n",
    containerInspect := fun _ => Except.ok " sha256:aaa ",
    downResult := Except.ok (), upResult := Except.ok () }

/-- A POST request to /update carrying no signature header at all. -/
def reqPost : HttpRequest :=
  { method := "POST", headers := [], body := "payload" }

/-- A GET request to /update. -/
def reqGet : HttpRequest := { method := "GET", headers := [], body := "" }

/-- The workload `web` has no live instance: `docker compose ps` still
answers, but `docker container inspect` fails, exactly as the docker CLI
does when no container exists. -/
def envAbsent : Orchestrator :=
  { composeRead := Except.ok ⟨[("web", ⟨"img:latest"⟩)]⟩,
    pullResult := fun _ => Except.ok (),
    imageInspect := fun _ => Except.ok "sha256:aaa\n",
    composePs := fun _ => Except.ok "web-1\n",
    containerInspect := fun _ => Except.error "no such container",
    downResult := Except.ok (), upResult := Except.ok () }

/-- Digest lookups whose raw outputs differ only in surrounding
whitespace. -/
def envC6 : Orchestrator :=
  { composeRead := Except.ok ⟨[("web", ⟨"img:latest"⟩)]⟩,
    pullResult := fun _ => Except.ok (),
    imageInspect := fun _ => Except.ok "sha256:abc\n",
    composePs := fun _ => Except.ok "web-1\n",
    containerInspect := fun _ => Except.ok " sha256:abc ",
    downResult := Except.ok (), upResult := Except.ok () }

def composeDb : DockerCompose := ⟨[("db", ⟨"postgres:16"⟩)]⟩

/-- A policy excluding the only declared service. -/
def cfgExcludeDb : Config :=
  { Include := [], Exclude := ["db"], Sleep := 300 }

def envC7 : Orchestrator :=
  { composeRead := Except.ok composeDb,
    pullResult := fun _ => Except.ok (),
    imageInspect := fun _ => Except.ok "sha256:aaa\n",
    composePs := fun _ => Except.ok "db-1\n",
    containerInspect := fun _ => Except.ok "sha256:aaa",
    downResult := Except.ok (), upResult := Except.ok () }

def composeWeb : DockerCompose := ⟨[("web", ⟨"img:latest"⟩)]⟩

/-- The bulk `docker compose pull` step fails. -/
def envC8 : Orchestrator :=
  { composeRead := Except.ok composeWeb,
    pullResult := fun _ => Except.error "network down",
    imageInspect := fun _ => Except.ok "sha256:aaa\n",
    composePs := fun _ => Except.ok "web-1\n",
    containerInspect := fun _ => Except.ok "sha256:aaa",
    downResult := Except.ok (), upResult := Except.ok () }

/-- Digests differ, so the executor runs, and `docker compose down`
fails. -/
def envC9 : Orchestrator :=
  { composeRead := Except.ok composeWeb,
    pullResult := fun _ => Except.ok (),
    imageInspect := fun _ => Except.ok "sha256:bbb\n",
    composePs := fun _ => Except.ok "web-1\n",
    containerInspect := fun _ => Except.ok "sha256:aaa",
    downResult := Except.error "compose down failed",
    upResult := Except.ok () }

/-- The compose file cannot be read or parsed this cycle. -/
def envBad : Orchestrator :=
  { composeRead := Except.error "yaml parse error",
    pullResult := fun _ => Except.ok (),
    imageInspect := fun _ => Except.ok "sha256:aaa\n",
    composePs := fun _ => Except.ok "web-1\n",
    containerInspect := fun _ => Except.ok "sha256:aaa",
    downResult := Except.ok (), upResult := Except.ok () }

/-! ### Helper lemmas -/

/-- `shouldProcessService` as a predicate: not excluded, and either the
include list is empty or the name is in it. -/
theorem shouldProcessService_eq_true (name : String) (config : Config) :
    shouldProcessService name config = true ↔
      (name ∉ config.Exclude ∧
        (config.Include = [] ∨ name ∈ config.Include)) := by
  unfold shouldProcessService
  rcases hE : config.Exclude with _ | ⟨e, es⟩ <;>
    rcases hI : config.Include with _ | ⟨i, is⟩ <;>
      simp [List.contains, List.elem_iff]

theorem isRequired_iff (d : DecisionKind) :
    d.isRequired = true ↔ d = DecisionKind.required := by
  cases d <;> simp [DecisionKind.isRequired]

/-- The `updateServices` flag of the comparison loop is set exactly when
some decision in its output is `required`. -/
theorem detectServices_updateServices (env : Orchestrator)
    (compose : DockerCompose) (ss : List String) :
    (detectServices env compose ss).updateServices = true ↔
      ∃ p ∈ (detectServices env compose ss).decisions,
        p.2 = DecisionKind.required := by
  induction ss with
  | nil => simp [detectServices]
  | cons s rest ih =>
    simp only [detectServices, Bool.or_eq_true, isRequired_iff,
      List.mem_cons, ih]
    constructor
    · rintro (h | ⟨p, hp, hr⟩)
      · exact ⟨(s, checkService env (serviceImage compose s) s),
          Or.inl rfl, h⟩
      · exact ⟨p, Or.inr hp, hr⟩
    · rintro ⟨p, hp | hp, hr⟩
      · subst hp; exact Or.inl hr
      · exact Or.inr ⟨p, hp, hr⟩

/-! ### Claims -/

/-- C1 (counterexample): a burst of three POST triggers runs three update
cycles, not the two (one running plus one coalesced follow-up) that the
claim requires — the handler runs `updateImages` inline per request, with
no trigger coordinator, no pending flag, and no coalescing. -/
theorem c1_counterexample :
    cyclesTriggered envUpToDate none [reqPost, reqPost, reqPost] = 3 ∧
    cyclesTriggered envUpToDate none [reqPost, reqPost, reqPost] ≠ 2 := by
  decide

/-- C1 (amended): every POST request runs exactly one full update cycle in
its handler; N triggers produce N cycles, never a coalesced 2. -/
theorem c1_amended (env : Orchestrator) (config : Option Config)
    (rs : List HttpRequest) :
    cyclesTriggered env config rs =
      rs.countP (fun r => decide (r.method = "POST")) := by
  induction rs with
  | nil => rfl
  | cons r rest ih =>
    simp only [cyclesTriggered, serveRequests, List.map_cons,
      List.countP_cons] at ih ⊢
    by_cases h : r.method = "POST" <;> simp [handleUpdate, h, ih]

/-- C2 (counterexample): a POST request with no signature header is
answered 200 (not 401) and an update cycle runs — `handleUpdate` performs
no signature verification at all. -/
theorem c2_counterexample :
    reqPost.headers = [] ∧
    (handleUpdate envUpToDate none reqPost).1.status = 200 ∧
    (handleUpdate envUpToDate none reqPost).1.status ≠ 401 ∧
    (handleUpdate envUpToDate none reqPost).2.isSome = true := by
  decide

/-- C2 (amended): every POST request — signed or not — triggers an update
cycle and receives 200 with body "Images updated"; a non-POST request
receives 405 and triggers nothing.  There is no 401 path. -/
theorem c2_amended (env : Orchestrator) (config : Option Config)
    (r : HttpRequest) :
    (r.method = "POST" →
      handleUpdate env config r =
        ({ status := 200, body := "Images updated" },
          some (updateImages env config))) ∧
    (r.method ≠ "POST" →
      handleUpdate env config r = ({ status := 405, body := "" }, none)) := by
  constructor
  · intro h
    simp [handleUpdate, h]
  · intro h
    simp [handleUpdate, h]

/-- C2 (witness): the amended claim at a concrete unsigned POST and a
concrete GET. -/
theorem c2_amended_witness :
    handleUpdate envUpToDate none reqPost =
      ({ status := 200, body := "Images updated" },
        some (updateImages envUpToDate none)) ∧
    handleUpdate envUpToDate none reqGet =
      ({ status := 405, body := "" }, none) :=
  ⟨(c2_amended envUpToDate none reqPost).1 rfl,
    (c2_amended envUpToDate none reqGet).2 (by decide)⟩

/-- C3: in every cycle the executor (`docker compose down` / `up -d`) is
invoked if and only if the `updateServices` flag is set, and that flag is
set if and only if some active workload's decision is `required`; in
particular no stop or start runs when every active workload is up to
date. -/
theorem c3_executor_iff_required (env : Orchestrator)
    (config : Option Config) :
    ((StepCall.down ∈ (updateImages env config).calls ∨
        StepCall.up ∈ (updateImages env config).calls) ↔
      (updateImages env config).anyRequired = true) ∧
    ((updateImages env config).anyRequired = true ↔
      ∃ p ∈ (updateImages env config).decisions,
        p.2 = DecisionKind.required) := by
  unfold updateImages
  cases hc : env.composeRead with
  | error e => simp
  | ok compose =>
    by_cases hlen : (listServices compose config).length = 0
    · simp [hlen]
    · simp only [hlen, if_false]
      cases hp : env.pullResult (listServices compose config) with
      | error e => simp
      | ok u =>
        by_cases hu : (detectServices env compose
            (listServices compose config)).updateServices
        · simp [hu, detectServices_updateServices env compose
            (listServices compose config) |>.mp hu]
        · simp only [hu, if_false, Bool.false_eq_true]
          constructor
          · simp
          · rw [← detectServices_updateServices]
            simp [hu]

/-- C4 (counterexample): a workload with no live instance (the container
inspection fails, as the docker CLI does when no container exists) is
skipped with no required decision; `anyRequired` stays false and the
executor never runs — the claim demands `required=true` instead. -/
theorem c4_counterexample :
    (updateImages envAbsent none).decisions =
      [("web", DecisionKind.skippedCurrent "no such container")] ∧
    (updateImages envAbsent none).anyRequired = false ∧
    StepCall.down ∉ (updateImages envAbsent none).calls ∧
    StepCall.up ∉ (updateImages envAbsent none).calls := by
  decide

/-- C4 (amended): for every active workload whose running-container
inspection fails (as happens when it has no live instance), the decision is
`skipped` with that error — the absence is not treated as
`required=true`. -/
theorem c4_amended_skipped (env : Orchestrator)
    (image serviceName rawLatest rawName e : String)
    (hL : env.imageInspect image = Except.ok rawLatest)
    (hN : env.composePs serviceName = Except.ok rawName)
    (hC : env.containerInspect (trimSpace rawName) = Except.error e) :
    checkService env image serviceName = DecisionKind.skippedCurrent e := by
  unfold checkService getImageDigest getContainerName getContainerDigest
  rw [hL, hN]
  simp only [Except.map]
  rw [hC]

/-- C4 (witness): the amended claim at the concrete absent-instance
environment. -/
theorem c4_amended_witness :
    envAbsent.containerInspect (trimSpace "web-1\n") =
      Except.error "no such container" ∧
    checkService envAbsent "img:latest" "web" =
      DecisionKind.skippedCurrent "no such container" :=
  ⟨rfl, c4_amended_skipped envAbsent "img:latest" "web"
    "sha256:aaa\n" "web-1\n" "no such container" rfl rfl rfl⟩

/-- C5: a declared workload name is active exactly when it is not in the
exclude list and either the include list is empty or contains it; a name in
exclude is never active regardless of include. -/
theorem c5_active_set (compose : DockerCompose) (config : Config)
    (name : String) :
    name ∈ listServices compose (some config) ↔
      (name ∈ compose.Services.map Prod.fst ∧ name ∉ config.Exclude ∧
        (config.Include = [] ∨ name ∈ config.Include)) := by
  unfold listServices
  simp only [List.mem_map, List.mem_filter]
  constructor
  · rintro ⟨p, ⟨hp, hs⟩, rfl⟩
    exact ⟨⟨p, hp, rfl⟩, (shouldProcessService_eq_true p.1 config).mp hs⟩
  · rintro ⟨⟨p, hp, rfl⟩, h⟩
    exact ⟨p, ⟨hp, (shouldProcessService_eq_true p.1 config).mpr h⟩, rfl⟩

/-- C6: when all three lookups of a workload succeed, its decision is
computed by literal string equality of the two digests after trimming the
raw tool outputs: equal trimmed strings give `upToDate`
(`required=false`), any difference gives `required`. -/
theorem c6_digest_comparison (env : Orchestrator)
    (image serviceName rawLatest rawName rawCurrent : String)
    (hL : env.imageInspect image = Except.ok rawLatest)
    (hN : env.composePs serviceName = Except.ok rawName)
    (hC : env.containerInspect (trimSpace rawName) = Except.ok rawCurrent) :
    checkService env image serviceName =
      (if trimSpace rawCurrent = trimSpace rawLatest then
        DecisionKind.upToDate
      else DecisionKind.required) := by
  unfold checkService getImageDigest getContainerName getContainerDigest
  rw [hL, hN]
  simp only [Except.map]
  rw [hC]
  simp only [Except.map]
  by_cases h : trimSpace rawCurrent = trimSpace rawLatest <;> simp [h]

/-- C6 (witness): raw outputs differing only in surrounding whitespace
compare equal after trimming, so the decision is `upToDate`. -/
theorem c6_witness :
    envC6.imageInspect "img:latest" = Except.ok "sha256:abc\n" ∧
    envC6.containerInspect (trimSpace "web-1\n") =
      Except.ok " sha256:abc " ∧
    checkService envC6 "img:latest" "web" = DecisionKind.upToDate :=
  ⟨rfl, rfl, by
    have h := c6_digest_comparison envC6 "img:latest" "web" "sha256:abc\n"
      "web-1\n" " sha256:abc " rfl rfl rfl
    rw [h]
    decide⟩

/-- C7: a cycle whose active set is empty returns at once with no decision,
`anyRequired=false`, no pull call and no executor call, as a normal
(non-fatal) outcome. -/
theorem c7_empty_active_set (env : Orchestrator) (config : Option Config)
    (compose : DockerCompose)
    (hc : env.composeRead = Except.ok compose)
    (he : listServices compose config = []) :
    updateImages env config =
      { fatal := false, calls := [], decisions := [], anyRequired := false,
        logs := [LogEvent.noServices] } := by
  unfold updateImages
  rw [hc]
  simp [he]

/-- C7 (witness): the empty-active-set result at a policy excluding the
only declared service. -/
theorem c7_witness :
    envC7.composeRead = Except.ok composeDb ∧
    listServices composeDb (some cfgExcludeDb) = [] ∧
    updateImages envC7 (some cfgExcludeDb) =
      { fatal := false, calls := [], decisions := [], anyRequired := false,
        logs := [LogEvent.noServices] } :=
  ⟨rfl, by decide,
    c7_empty_active_set envC7 (some cfgExcludeDb) composeDb rfl (by decide)⟩

/-- C8: a failed bulk pull aborts the cycle — the pull attempt is the only
side-effecting call, there are no decisions and no executor call — the
failure is logged, the cycle is not fatal, and a subsequent daemon cycle
still runs. -/
theorem c8_pull_failure_aborts (env : Orchestrator) (config : Option Config)
    (compose : DockerCompose) (e : String)
    (hc : env.composeRead = Except.ok compose)
    (hne : listServices compose config ≠ [])
    (hp : env.pullResult (listServices compose config) = Except.error e) :
    updateImages env config =
      { fatal := false,
        calls := [StepCall.pull (listServices compose config)],
        decisions := [], anyRequired := false,
        logs := [LogEvent.pulling (listServices compose config).length,
          LogEvent.pullError e] } ∧
    (∀ rest : List Orchestrator, daemonCycles config (env :: rest) =
      updateImages env config :: daemonCycles config rest) := by
  have hlen : ¬ (listServices compose config).length = 0 := by
    simpa [List.length_eq_zero] using hne
  have hcycle : updateImages env config =
      { fatal := false,
        calls := [StepCall.pull (listServices compose config)],
        decisions := [], anyRequired := false,
        logs := [LogEvent.pulling (listServices compose config).length,
          LogEvent.pullError e] } := by
    unfold updateImages
    rw [hc]
    simp [hlen, hp]
  have hfatal : (updateImages env config).fatal = false := by rw [hcycle]
  exact ⟨hcycle, fun rest => by simp [daemonCycles, hfatal]⟩

/-- C8 (witness): the pull-failure abort at a concrete failing pull. -/
theorem c8_witness :
    envC8.composeRead = Except.ok composeWeb ∧
    listServices composeWeb none ≠ [] ∧
    envC8.pullResult (listServices composeWeb none) =
      Except.error "network down" ∧
    updateImages envC8 none =
      { fatal := false,
        calls := [StepCall.pull (listServices composeWeb none)],
        decisions := [], anyRequired := false,
        logs := [LogEvent.pulling (listServices composeWeb none).length,
          LogEvent.pullError "network down"] } :=
  ⟨rfl, by decide, rfl,
    (c8_pull_failure_aborts envC8 none composeWeb "network down" rfl
      (by decide) rfl).1⟩

/-- C9: when the executor runs and the stop step fails, the start step is
still attempted, the stop error is surfaced as a log event, and the cycle
is not fatal to the process. -/
theorem c9_down_failure_best_effort (env : Orchestrator)
    (config : Option Config) (e : String)
    (hreq : (updateImages env config).anyRequired = true)
    (hdown : env.downResult = Except.error e) :
    StepCall.up ∈ (updateImages env config).calls ∧
    LogEvent.downError e ∈ (updateImages env config).logs ∧
    (updateImages env config).fatal = false := by
  unfold updateImages at hreq ⊢
  cases hc : env.composeRead with
  | error e2 => rw [hc] at hreq; simp at hreq
  | ok compose =>
    rw [hc] at hreq
    by_cases hlen : (listServices compose config).length = 0
    · simp [hlen] at hreq
    · simp only [hlen, if_false] at hreq ⊢
      cases hp : env.pullResult (listServices compose config) with
      | error e2 => rw [hp] at hreq; simp at hreq
      | ok u =>
        rw [hp] at hreq
        by_cases hu : (detectServices env compose
            (listServices compose config)).updateServices
        · simp [hu, execDown, hdown]
        · simp [hu] at hreq

/-- C9 (witness): a concrete cycle needing an update whose stop step fails:
the start step still appears in the call list and the error is logged. -/
theorem c9_witness :
    (updateImages envC9 none).anyRequired = true ∧
    StepCall.up ∈ (updateImages envC9 none).calls ∧
    LogEvent.downError "compose down failed" ∈
      (updateImages envC9 none).logs ∧
    (updateImages envC9 none).fatal = false :=
  have h := c9_down_failure_best_effort envC9 none "compose down failed"
    (by decide) rfl
  ⟨by decide, h.1, h.2.1, h.2.2⟩

/-- C10: a compose-file read or parse failure at any later cycle — after
arbitrarily many successful cycles — is fatal: that cycle hits the fatal
log and the daemon runs no further cycles. -/
theorem c10_compose_failure_fatal (config : Option Config)
    (good : List Orchestrator) (bad : Orchestrator)
    (rest : List Orchestrator) (e : String)
    (hgood : ∀ env ∈ good, (updateImages env config).fatal = false)
    (hbad : bad.composeRead = Except.error e) :
    (updateImages bad config).fatal = true ∧
    daemonCycles config (good ++ bad :: rest) =
      good.map (fun env => updateImages env config) ++
        [updateImages bad config] := by
  have hfatal : (updateImages bad config).fatal = true := by
    unfold updateImages
    rw [hbad]
  refine ⟨hfatal, ?_⟩
  induction good with
  | nil =>
    simp only [List.nil_append, List.map_nil, List.append_nil]
    simp [daemonCycles, hfatal]
  | cons g gs ih =>
    have hg : (updateImages g config).fatal = false :=
      hgood g (List.mem_cons_self g gs)
    have ih2 := ih (fun env h => hgood env (List.mem_cons_of_mem g h))
    simp only [List.cons_append, List.map_cons]
    simp [daemonCycles, hg, ih2]

/-- C10 (witness): one good cycle, then an unreadable compose file: the
daemon stops after the fatal cycle and the remaining tick never runs. -/
theorem c10_witness :
    (∀ env ∈ [envUpToDate], (updateImages env none).fatal = false) ∧
    envBad.composeRead = Except.error "yaml parse error" ∧
    (updateImages envBad none).fatal = true ∧
    daemonCycles none ([envUpToDate] ++ envBad :: [envUpToDate]) =
      [envUpToDate].map (fun env => updateImages env none) ++
        [updateImages envBad none] := by
  have hg : ∀ env ∈ [envUpToDate], (updateImages env none).fatal = false := by
    intro env h
    rw [List.mem_singleton] at h
    subst h
    decide
  have h := c10_compose_failure_fatal none [envUpToDate] envBad [envUpToDate]
    "yaml parse error" hg rfl
  exact ⟨hg, rfl, h.1, h.2⟩

end DcUpdate
